import Mathlib

/-!
Shallow embedding of the foodgram-st backend (Django) relation and
aggregation logic: the data model (recipes/models.py, users/models.py),
the shopping-list aggregation (api/views.py, RecipeViewSet), the
favorite / shopping-cart toggles, and the serializer validation rules
(api/serializers.py). Machine rows are embedded as Lean structures over
Nat and String; a database state is a structure of row lists. All
definitions are executable.
-/

namespace Foodgram

/-- Row of the Ingredient table (recipes/models.py). -/
structure Ingredient where
  id : Nat
  name : String
  measurement_unit : String
deriving DecidableEq

/-- Row of the Recipe table (recipes/models.py); author is a User id,
image is the stored file path, None when absent. -/
structure Recipe where
  id : Nat
  author : Nat
  name : String
  image : Option String
  text : String
  cooking_time : Nat
deriving DecidableEq

/-- Row of the RecipeIngredient join table (recipes/models.py). -/
structure RecipeIngredient where
  recipe : Nat
  ingredient : Nat
  amount : Nat
deriving DecidableEq

/-- Row of the FavoriteRecipe join table (recipes/models.py). -/
structure FavoriteRecipe where
  user : Nat
  recipe : Nat
deriving DecidableEq

/-- Row of the ShoppingCart join table (recipes/models.py); the primary
key id matters because ShoppingCartSerializer serializes it. -/
structure ShoppingCart where
  id : Nat
  user : Nat
  recipe : Nat
deriving DecidableEq

/-- Row of the Subscribers join table (users/models.py). -/
structure Subscribers where
  author : Nat
  user : Nat
deriving DecidableEq

/-- Database state: one list per table, plus the auto-increment counter
of the ShoppingCart table (the only primary key a serializer exposes). -/
structure DB where
  ingredients : List Ingredient
  recipes : List Recipe
  recipeingredients : List RecipeIngredient
  favorites : List FavoriteRecipe
  shoppingcarts : List ShoppingCart
  subscribers : List Subscribers
  nextShoppingCartId : Nat
deriving DecidableEq

/-- Foreign-key dereference of a RecipeIngredient.ingredient id. -/
def ingredientLookup (db : DB) (iid : Nat) : Option Ingredient :=
  db.ingredients.find? (fun i => i.id == iid)

/-- get_object_or_404(Recipe, id=...) without the 404 side. -/
def recipeLookup (db : DB) (rid : Nat) : Option Recipe :=
  db.recipes.find? (fun r => r.id == rid)

/-- One result row of the download_shopping_cart queryset: the joined
ingredient name, the RecipeIngredient amount annotation, and the joined
measurement unit annotation (api/views.py lines 185-190). -/
structure CartRow where
  name : String
  amount : Nat
  measurement_unit : String
deriving DecidableEq

/-- The rows produced by ShoppingCart.objects.filter(user=...) joined to
each cart recipe RecipeIngredient row and its Ingredient, before the
order_by clause. Both queryset paths (recipe_id__ingredients and
recipe_id__recipeingredients) traverse the same RecipeIngredient join,
so each row pairs one amount with its own ingredient name and unit.
joinRow is the inner-join step dereferencing the ingredient id. -/
def joinRow (db : DB) (ri : RecipeIngredient) : Option CartRow :=
  (ingredientLookup db ri.ingredient).map (fun ing =>
    { name := ing.name, amount := ri.amount,
      measurement_unit := ing.measurement_unit })

def shoppingCartJoin (db : DB) (userId : Nat) : List CartRow :=
  (db.shoppingcarts.filter (fun sc => sc.user == userId)).flatMap (fun sc =>
    (db.recipeingredients.filter (fun ri => ri.recipe == sc.recipe)).filterMap
      (joinRow db))

/-- Lexicographic codepoint order on character lists: the ORDER BY
order of the database on text columns. -/
def charListLe : List Char → List Char → Bool
  | [], _ => true
  | _ :: _, [] => false
  | c :: cs, d :: ds =>
    if c.toNat < d.toNat then true
    else if d.toNat < c.toNat then false
    else charListLe cs ds

/-- Lexicographic order on strings. -/
def strLe (a b : String) : Bool :=
  charListLe a.data b.data

/-- Stable insertion of a row into a list sorted by ingredient name. -/
def insertByName (r : CartRow) : List CartRow → List CartRow
  | [] => [r]
  | x :: xs => if strLe r.name x.name then r :: x :: xs else x :: insertByName r xs

/-- Stable sort by ingredient name: the order_by clause of the
download_shopping_cart queryset (api/views.py line 190). -/
def sortByName : List CartRow → List CartRow
  | [] => []
  | x :: xs => insertByName x (sortByName xs)

/-- The full queryset of download_shopping_cart (api/views.py 184-190):
join rows ordered by ingredient name. -/
def downloadQueryset (db : DB) (userId : Nat) : List CartRow :=
  sortByName (shoppingCartJoin db userId)

/-- One update step of the Python dict in aggregate_ingredients: if the
name is absent the pair (amount, unit) is inserted at the end (insertion
order), otherwise the stored amount is increased and the unit replaced
by the last observed one (api/views.py 201-207). -/
def dictUpdate (acc : List (String × Nat × String)) (name : String)
    (amount : Nat) (unit : String) : List (String × Nat × String) :=
  match acc with
  | [] => [(name, amount, unit)]
  | e :: rest =>
    if e.1 == name then (e.1, e.2.1 + amount, unit) :: rest
    else e :: dictUpdate rest name amount unit

/-- RecipeViewSet.aggregate_ingredients (api/views.py 195-208): fold the
queryset rows into an insertion-ordered dict keyed by ingredient name. -/
def aggregate_ingredients (rows : List CartRow) : List (String × Nat × String) :=
  rows.foldl (fun acc r => dictUpdate acc r.name r.amount r.measurement_unit) []

/-- One line written per aggregated ingredient by
create_shopping_cart_file: the f-string produces a trailing period
before the newline (api/views.py line 214). -/
def cartLine (name : String) (amount : Nat) (unit : String) : String :=
  name ++ " - " ++ toString amount ++ " (" ++ unit ++ ").\n"

/-- RecipeViewSet.create_shopping_cart_file (api/views.py 210-215): the
text written to shopping_cart.txt, a fixed header line followed by one
line per aggregated ingredient in dict order. -/
def create_shopping_cart_file (ingredients : List (String × Nat × String)) : String :=
  "Ваш список покупок:\n"
    ++ String.join (ingredients.map (fun e => cartLine e.1 e.2.1 e.2.2))

/-- RecipeViewSet.download_shopping_cart (api/views.py 184-193): the
content of the returned file for a given user. -/
def download_shopping_cart (db : DB) (userId : Nat) : String :=
  create_shopping_cart_file (aggregate_ingredients (downloadQueryset db userId))

/-- Recipe ids of the ShoppingCart rows of a user. -/
def cartRecipeIds (db : DB) (userId : Nat) : List Nat :=
  (db.shoppingcarts.filter (fun sc => sc.user == userId)).map (fun sc => sc.recipe)

/-- Whether the ingredient of a RecipeIngredient row has the given
display name. -/
def riHasName (db : DB) (ri : RecipeIngredient) (name : String) : Bool :=
  match ingredientLookup db ri.ingredient with
  | some ing => ing.name == name
  | none => false

/-- The total the specification describes for one distinct ingredient
name: the sum of the amount values of all RecipeIngredient rows of the
cart recipes whose ingredient has that display name. -/
def specNameTotal (db : DB) (userId : Nat) (name : String) : Nat :=
  ((db.recipeingredients.filter (fun ri =>
      (cartRecipeIds db userId).contains ri.recipe && riHasName db ri name)).map
    (fun ri => ri.amount)).sum

/-- Sum of the amounts of the queryset rows carrying a given name. -/
def sumNamed (rows : List CartRow) (n : String) : Nat :=
  ((rows.filter (fun r => r.name == n)).map (fun r => r.amount)).sum

/-- Whether some queryset row carries the given name. -/
def hasName (rows : List CartRow) (n : String) : Bool :=
  rows.any (fun r => r.name == n)

/-- Amount stored under a name in the aggregation dict. -/
def lookupAmount : List (String × Nat × String) → String → Option Nat
  | [], _ => none
  | e :: rest, n => if e.1 == n then some e.2.1 else lookupAmount rest n

/-- Keys of the aggregation dict, in insertion order. -/
def keys (l : List (String × Nat × String)) : List String :=
  l.map (fun e => e.1)

/-- A serialized payload: RecipeMinifiedSerializer and
ShoppingCartSerializer both expose the fields
(id, name, image, cooking_time) (api/serializers.py 184-207). -/
inductive Payload where
  | minified (id : Nat) (name : String) (image : Option String) (cooking_time : Nat)
deriving DecidableEq

/-- HTTP response of a toggle endpoint: 201 with a payload, 204, or
400 with an errors message (api/views.py). -/
inductive Resp where
  | created (p : Payload)
  | noContent
  | badRequest (errors : String)
deriving DecidableEq

/-- RecipeMinifiedSerializer(recipe).data (api/serializers.py 184-190). -/
def recipeMinified (r : Recipe) : Payload :=
  .minified r.id r.name r.image r.cooking_time

/-- recipe.save(): an UPDATE of the row with the instance model fields.
The is_favorited / is_in_shopping_cart attributes the views assign are
not model fields, so the written fields are exactly the instance ones. -/
def saveRecipe (db : DB) (r : Recipe) : DB :=
  { db with recipes := db.recipes.map (fun x => if x.id == r.id then r else x) }

/-- Whether a FavoriteRecipe row (user, recipe) exists:
request.user.favorites.filter(recipe=recipe).exists(). -/
def favExists (db : DB) (u rid : Nat) : Bool :=
  db.favorites.any (fun f => f.user == u && f.recipe == rid)

/-- Whether a ShoppingCart row (user, recipe) exists. -/
def cartExists (db : DB) (u rid : Nat) : Bool :=
  db.shoppingcarts.any (fun sc => sc.user == u && sc.recipe == rid)

/-- RecipeViewSet.add_to_favorites (api/views.py 260-272). -/
def add_to_favorites (db : DB) (u : Nat) (r : Recipe) : Resp × DB :=
  if favExists db u r.id then
    (.badRequest "Рецепт уже добавлен в избранное!", db)
  else
    let db1 := { db with favorites := db.favorites ++ [{ user := u, recipe := r.id }] }
    (.created (recipeMinified r), saveRecipe db1 r)

/-- RecipeViewSet.remove_from_favorites (api/views.py 274-283): the
queryset delete removes every matching row. -/
def remove_from_favorites (db : DB) (u : Nat) (r : Recipe) : Resp × DB :=
  if !favExists db u r.id then
    (.badRequest "Рецепт не найден в избранном.", db)
  else
    let db1 := { db with favorites :=
      db.favorites.filter (fun f => !(f.user == u && f.recipe == r.id)) }
    (.noContent, saveRecipe db1 r)

/-- RecipeViewSet.add_to_shopping_cart (api/views.py 227-238): the new
ShoppingCart row takes the next auto-increment id, and the response is
the ShoppingCartSerializer data, whose id field is the id of the
created ShoppingCart row, not of the recipe. -/
def add_to_shopping_cart (db : DB) (u : Nat) (r : Recipe) : Resp × DB :=
  if cartExists db u r.id then
    (.badRequest "Рецепт уже добавлен!", db)
  else
    let row : ShoppingCart := { id := db.nextShoppingCartId, user := u, recipe := r.id }
    let db1 := { db with
                 shoppingcarts := db.shoppingcarts ++ [row],
                 nextShoppingCartId := db.nextShoppingCartId + 1 }
    (.created (.minified row.id r.name r.image r.cooking_time), saveRecipe db1 r)

/-- RecipeViewSet.remove_from_shopping_cart (api/views.py 240-248). -/
def remove_from_shopping_cart (db : DB) (u : Nat) (r : Recipe) : Resp × DB :=
  if !cartExists db u r.id then
    (.badRequest "Рецепт не найден в списке покупок.", db)
  else
    let db1 := { db with shoppingcarts :=
      db.shoppingcarts.filter (fun sc => !(sc.user == u && sc.recipe == r.id)) }
    (.noContent, saveRecipe db1 r)

/-- The non-relational writable fields of a recipe payload. -/
structure RecipeData where
  name : String
  image : Option String
  text : String
  cooking_time : Nat
deriving DecidableEq

/-- RecipeSerializer.validate (api/serializers.py 128-144): returns the
ValidationError message, or none when the data is accepted. The
ingredients argument is the list of (ingredient id, amount) pairs; a
missing ingredients key behaves as the empty list under the falsiness
test of the source. -/
def RecipeSerializer_validate (ingredients : List (Nat × Nat))
    (image : Option String) : Option String :=
  if ingredients.isEmpty then
    some "Укажите необходимые ингрeдиенты для рецепта!"
  else if !(ingredients.map (fun p => p.1)).Nodup then
    some "Вы указали одинаковые ингредиенты при создании рецепта!"
  else if image.isNone then
    some "Вы не указали картинку рецепта!"
  else
    none

/-- RecipeSerializer.add_ingredients (api/serializers.py 159-165): one
RecipeIngredient row created per (id, amount) pair, in order. -/
def add_ingredients (db : DB) (rid : Nat) (items : List (Nat × Nat)) : DB :=
  { db with recipeingredients := db.recipeingredients
      ++ items.map (fun p => { recipe := rid, ingredient := p.1, amount := p.2 }) }

/-- recipe.ingredients.clear() inside RecipeSerializer.update: deletes
every RecipeIngredient row of the recipe. -/
def clearIngredients (db : DB) (rid : Nat) : DB :=
  { db with recipeingredients :=
      db.recipeingredients.filter (fun ri => !(ri.recipe == rid)) }

/-- ModelSerializer update of the scalar recipe fields. -/
def updateRecipeRow (db : DB) (rid : Nat) (d : RecipeData) : DB :=
  { db with recipes := db.recipes.map (fun r =>
      if r.id == rid then
        { r with name := d.name, image := d.image, text := d.text,
                 cooking_time := d.cooking_time }
      else r) }

/-- RecipeSerializer.update (api/serializers.py 152-157): clear the
ingredient set, update the scalar fields, then re-insert the new
ingredient list. -/
def RecipeSerializer_update (db : DB) (rid : Nat) (d : RecipeData)
    (items : List (Nat × Nat)) : DB :=
  add_ingredients (updateRecipeRow (clearIngredients db rid) rid d) rid items

/-- RecipeSerializer.create (api/serializers.py 146-150) guarded by
RecipeSerializer.validate: on rejection the message is returned and the
database is untouched; otherwise the Recipe row and its RecipeIngredient
rows are persisted. -/
def recipeCreate (db : DB) (author rid : Nat) (d : RecipeData)
    (ingredients : List (Nat × Nat)) : Option String × DB :=
  match RecipeSerializer_validate ingredients d.image with
  | some e => (some e, db)
  | none =>
    let recipe : Recipe := { id := rid, author := author, name := d.name,
                             image := d.image, text := d.text,
                             cooking_time := d.cooking_time }
    (none, add_ingredients { db with recipes := db.recipes ++ [recipe] } rid ingredients)

/-- RecipeSerializer.update guarded by RecipeSerializer.validate. -/
def recipeUpdate (db : DB) (rid : Nat) (d : RecipeData)
    (ingredients : List (Nat × Nat)) : Option String × DB :=
  match RecipeSerializer_validate ingredients d.image with
  | some e => (some e, db)
  | none => (none, RecipeSerializer_update db rid d ingredients)

/-- SubscribeSerializer.validate (api/serializers.py 265-273): the self
subscription test runs before the duplicate test. -/
def SubscribeSerializer_validate (db : DB) (author user : Nat) : Option String :=
  if author == user then
    some "Нельзя подписаться на самого себя!"
  else if db.subscribers.any (fun s => s.author == author && s.user == user) then
    some "Вы уже подписаны на этого автора!"
  else
    none

/-- POST subscribe (api/views.py 89-99): validate, then insert the
Subscribers row. -/
def subscribePost (db : DB) (author user : Nat) : Option String × DB :=
  match SubscribeSerializer_validate db author user with
  | some e => (some e, db)
  | none => (none, { db with subscribers := db.subscribers ++ [{ author := author, user := user }] })

/-- RecipeSerializer.get_is_favorited (api/serializers.py 116-120): the
request user is none for an anonymous request. -/
def get_is_favorited (db : DB) (requestUser : Option Nat) (rid : Nat) : Bool :=
  match requestUser with
  | some u => favExists db u rid
  | none => false

/-- RecipeSerializer.get_is_in_shopping_cart (api/serializers.py 122-126). -/
def get_is_in_shopping_cart (db : DB) (requestUser : Option Nat) (rid : Nat) : Bool :=
  match requestUser with
  | some u => cartExists db u rid
  | none => false

/-- UserSerializer.get_is_subscribed (api/serializers.py 31-33). -/
def get_is_subscribed (db : DB) (requestUser : Option Nat) (authorId : Nat) : Bool :=
  match requestUser with
  | some u => db.subscribers.any (fun s => s.author == authorId && s.user == u)
  | none => false

/-- Scenario of the shopping-list aggregation example: recipe A with
sole ingredient (Salt, g, 10) and recipe B with sole ingredient
(Salt, g, 5), both in the cart of user 1. -/
def saltDB : DB :=
  { ingredients := [{ id := 1, name := "Salt", measurement_unit := "g" }],
    recipes :=
      [{ id := 1, author := 9, name := "A", image := some "a.png", text := "ta", cooking_time := 5 },
       { id := 2, author := 9, name := "B", image := some "b.png", text := "tb", cooking_time := 7 }],
    recipeingredients :=
      [{ recipe := 1, ingredient := 1, amount := 10 },
       { recipe := 2, ingredient := 1, amount := 5 }],
    favorites := [],
    shoppingcarts :=
      [{ id := 1, user := 1, recipe := 1 },
       { id := 2, user := 1, recipe := 2 }],
    subscribers := [],
    nextShoppingCartId := 3 }

/-- Scenario with two distinct ingredient records sharing the display
name Salt (grouping by name merges them): recipe 1 uses ingredient 1
(Salt, g) amount 10, recipe 2 uses ingredient 2 (Salt, kg) amount 5,
both in the cart of user 1. -/
def twoSaltDB : DB :=
  { ingredients :=
      [{ id := 1, name := "Salt", measurement_unit := "g" },
       { id := 2, name := "Salt", measurement_unit := "kg" }],
    recipes :=
      [{ id := 1, author := 9, name := "A", image := some "a.png", text := "ta", cooking_time := 5 },
       { id := 2, author := 9, name := "B", image := some "b.png", text := "tb", cooking_time := 7 }],
    recipeingredients :=
      [{ recipe := 1, ingredient := 1, amount := 10 },
       { recipe := 2, ingredient := 2, amount := 5 }],
    favorites := [],
    shoppingcarts :=
      [{ id := 1, user := 1, recipe := 1 },
       { id := 2, user := 1, recipe := 2 }],
    subscribers := [],
    nextShoppingCartId := 3 }

/-- Scenario for the empty-cart download: user 7 has no ShoppingCart
rows although other tables are populated. -/
def emptyCartDB : DB :=
  { ingredients := [{ id := 1, name := "Salt", measurement_unit := "g" }],
    recipes :=
      [{ id := 1, author := 9, name := "A", image := some "a.png", text := "ta", cooking_time := 5 }],
    recipeingredients := [{ recipe := 1, ingredient := 1, amount := 10 }],
    favorites := [{ user := 7, recipe := 1 }],
    shoppingcarts := [{ id := 1, user := 3, recipe := 1 }],
    subscribers := [],
    nextShoppingCartId := 2 }

/-- Scenario for the toggle payloads: a fresh database whose sole
recipe has id 2 while the ShoppingCart auto-increment counter is at 1,
so the first cart insertion gets row id 1. -/
def borschtDB : DB :=
  { ingredients := [{ id := 1, name := "Beet", measurement_unit := "g" }],
    recipes :=
      [{ id := 2, author := 1, name := "Борщ", image := some "b.png", text := "tb", cooking_time := 30 }],
    recipeingredients := [{ recipe := 2, ingredient := 1, amount := 300 }],
    favorites := [],
    shoppingcarts := [],
    subscribers := [],
    nextShoppingCartId := 1 }

/-- The recipe row of borschtDB. -/
def borschtRecipe : Recipe :=
  { id := 2, author := 1, name := "Борщ", image := some "b.png", text := "tb", cooking_time := 30 }

/-- Variant of borschtDB in which user 1 already has the recipe in
both the favorites and the shopping cart. -/
def favCartDB : DB :=
  { borschtDB with
    favorites := [{ user := 1, recipe := 2 }],
    shoppingcarts := [{ id := 5, user := 1, recipe := 2 }],
    nextShoppingCartId := 6 }

/-! Lemmas about the sort, the aggregation dict and the join. -/

theorem insertByName_perm (r : CartRow) (l : List CartRow) :
    (insertByName r l).Perm (r :: l) := by
  induction l with
  | nil => simp [insertByName]
  | cons x xs ih =>
    by_cases h : strLe r.name x.name = true
    · simp [insertByName, h]
    · simp only [insertByName, h, Bool.false_eq_true, if_false]
      exact (ih.cons x).trans (List.Perm.swap r x xs)

theorem sortByName_perm (l : List CartRow) : (sortByName l).Perm l := by
  induction l with
  | nil => simp [sortByName]
  | cons x xs ih => exact (insertByName_perm x (sortByName xs)).trans (ih.cons x)

theorem sumNamed_perm {l₁ l₂ : List CartRow} (h : l₁.Perm l₂) (n : String) :
    sumNamed l₁ n = sumNamed l₂ n :=
  ((h.filter _).map _).sum_eq

theorem sumNamed_cons (r : CartRow) (rows : List CartRow) (n : String) :
    sumNamed (r :: rows) n = (if r.name == n then r.amount else 0) + sumNamed rows n := by
  by_cases h : (r.name == n) = true <;> simp [sumNamed, List.filter_cons, h]

theorem lookupAmount_dictUpdate_self (acc : List (String × Nat × String))
    (n : String) (a : Nat) (u : String) :
    lookupAmount (dictUpdate acc n a u) n = some ((lookupAmount acc n).getD 0 + a) := by
  induction acc with
  | nil => simp [dictUpdate, lookupAmount]
  | cons e rest ih =>
    by_cases h : (e.1 == n) = true
    · simp [dictUpdate, lookupAmount, h]
    · simp [dictUpdate, lookupAmount, h, ih]

theorem lookupAmount_dictUpdate_ne (acc : List (String × Nat × String))
    {n m : String} (a : Nat) (u : String) (hnm : m ≠ n) :
    lookupAmount (dictUpdate acc n a u) m = lookupAmount acc m := by
  have h3 : ¬ n = m := fun hc => hnm hc.symm
  induction acc with
  | nil =>
    simp [dictUpdate, lookupAmount, h3]
  | cons e rest ih =>
    by_cases h : (e.1 == n) = true
    · have he : e.1 = n := by simpa using h
      simp [dictUpdate, lookupAmount, h, he, h3]
    · simp [dictUpdate, lookupAmount, h, ih]

theorem lookupAmount_aggregate_aux (rows : List CartRow) :
    ∀ (acc : List (String × Nat × String)) (n : String),
      lookupAmount
          (rows.foldl (fun acc r => dictUpdate acc r.name r.amount r.measurement_unit) acc) n =
        match lookupAmount acc n with
        | some x => some (x + sumNamed rows n)
        | none => if hasName rows n then some (sumNamed rows n) else none := by
  induction rows with
  | nil =>
    intro acc n
    cases h : lookupAmount acc n <;> simp [sumNamed, hasName, h]
  | cons r rs ih =>
    intro acc n
    simp only [List.foldl_cons]
    rw [ih]
    by_cases h : (r.name == n) = true
    · have hn : r.name = n := by simpa using h
      subst hn
      rw [lookupAmount_dictUpdate_self]
      cases hacc : lookupAmount acc r.name <;>
        · simp [sumNamed_cons, hasName, hacc, h]
          try omega
    · have hm : n ≠ r.name := by
        intro hc
        exact absurd (by simpa using hc.symm) h
      rw [lookupAmount_dictUpdate_ne _ _ _ hm]
      cases hacc : lookupAmount acc n <;>
        simp [sumNamed_cons, hasName, hacc, h]

theorem lookupAmount_aggregate (rows : List CartRow) (n : String) :
    lookupAmount (aggregate_ingredients rows) n =
      if hasName rows n then some (sumNamed rows n) else none := by
  have h := lookupAmount_aggregate_aux rows [] n
  simpa [aggregate_ingredients, lookupAmount] using h

theorem keys_cons (e : String × Nat × String) (l : List (String × Nat × String)) :
    keys (e :: l) = e.1 :: keys l := rfl

theorem keys_dictUpdate (acc : List (String × Nat × String)) (n : String)
    (a : Nat) (u : String) :
    keys (dictUpdate acc n a u) =
      if acc.any (fun e => e.1 == n) then keys acc else keys acc ++ [n] := by
  induction acc with
  | nil => simp [dictUpdate, keys]
  | cons e rest ih =>
    by_cases h : (e.1 == n) = true
    · simp [dictUpdate, keys, h]
    · rw [show dictUpdate (e :: rest) n a u = e :: dictUpdate rest n a u from by
        simp [dictUpdate, h]]
      rw [keys_cons, keys_cons, ih]
      by_cases h2 : (rest.any fun e => e.1 == n) = true <;> simp [h, h2]

theorem keys_nodup_dictUpdate (acc : List (String × Nat × String)) (n : String)
    (a : Nat) (u : String) (h : (keys acc).Nodup) :
    (keys (dictUpdate acc n a u)).Nodup := by
  rw [keys_dictUpdate]
  by_cases ha : acc.any (fun e => e.1 == n) = true
  · simpa [ha] using h
  · have hn : n ∉ keys acc := by
      intro hc
      rcases List.mem_map.mp hc with ⟨e, he, hee⟩
      exact ha (List.any_eq_true.mpr ⟨e, he, by simpa using hee⟩)
    simp only [ha, Bool.false_eq_true, if_false]
    refine List.Nodup.append h (List.nodup_singleton n) ?_
    intro x hx hxn
    exact hn (List.mem_singleton.mp hxn ▸ hx)

theorem keys_nodup_foldl (rows : List CartRow) :
    ∀ acc, (keys acc).Nodup →
      (keys (rows.foldl
        (fun acc r => dictUpdate acc r.name r.amount r.measurement_unit) acc)).Nodup := by
  induction rows with
  | nil => intro acc h; simpa using h
  | cons r rs ih =>
    intro acc h
    simp only [List.foldl_cons]
    exact ih _ (keys_nodup_dictUpdate _ _ _ _ h)

theorem keys_nodup_aggregate (rows : List CartRow) :
    (keys (aggregate_ingredients rows)).Nodup :=
  keys_nodup_foldl rows [] (by simp [keys])

theorem lookupAmount_of_mem {l : List (String × Nat × String)} (hnd : (keys l).Nodup)
    {n : String} {a : Nat} {u : String} (h : (n, a, u) ∈ l) :
    lookupAmount l n = some a := by
  induction l with
  | nil => cases h
  | cons e rest ih =>
    have hk : keys (e :: rest) = e.1 :: keys rest := by simp [keys]
    rw [hk] at hnd
    rcases List.mem_cons.mp h with he | hrest
    · subst he; simp [lookupAmount]
    · have hne : (e.1 == n) = false := by
        simp only [beq_eq_false_iff_ne]
        intro hc
        exact (List.nodup_cons.mp hnd).1
          (hc ▸ List.mem_map.mpr ⟨(n, a, u), hrest, rfl⟩)
      simp [lookupAmount, hne, ih (List.nodup_cons.mp hnd).2 hrest]

theorem sumNamed_append (l₁ l₂ : List CartRow) (n : String) :
    sumNamed (l₁ ++ l₂) n = sumNamed l₁ n + sumNamed l₂ n := by
  simp [sumNamed, List.filter_append]

theorem sumNamed_flatMap {α : Type} (l : List α) (f : α → List CartRow) (n : String) :
    sumNamed (l.flatMap f) n = (l.map (fun x => sumNamed (f x) n)).sum := by
  induction l with
  | nil => simp [sumNamed]
  | cons x xs ih => simp [List.flatMap_cons, sumNamed_append, ih]

theorem sumNamed_filterMap_joinRow (db : DB) (n : String) (ris : List RecipeIngredient) :
    sumNamed (ris.filterMap (joinRow db)) n =
      ((ris.filter (fun ri => riHasName db ri n)).map (fun ri => ri.amount)).sum := by
  induction ris with
  | nil => simp [sumNamed]
  | cons ri rest ih =>
    cases hlk : ingredientLookup db ri.ingredient with
    | none =>
      have h1 : joinRow db ri = none := by simp [joinRow, hlk]
      have h2 : riHasName db ri n = false := by simp [riHasName, hlk]
      simp [List.filterMap_cons, h1, List.filter_cons, h2, ih]
    | some ing =>
      have h1 : joinRow db ri =
          some { name := ing.name, amount := ri.amount,
                 measurement_unit := ing.measurement_unit } := by
        simp [joinRow, hlk]
      have h2 : riHasName db ri n = (ing.name == n) := by simp [riHasName, hlk]
      by_cases hn : (ing.name == n) = true <;>
        simp [List.filterMap_cons, h1, sumNamed_cons, List.filter_cons, h2, hn, ih]

theorem sum_filter_or {α : Type} (p q w : α → Bool) (f : α → Nat) (l : List α)
    (hdisj : ∀ a ∈ l, ¬(p a = true ∧ q a = true)) :
    ((l.filter (fun a => (p a || q a) && w a)).map f).sum =
      ((l.filter (fun a => p a && w a)).map f).sum +
        ((l.filter (fun a => q a && w a)).map f).sum := by
  induction l with
  | nil => simp
  | cons x xs ih =>
    have hx := hdisj x (List.mem_cons_self x xs)
    have ihs := ih (fun a ha => hdisj a (List.mem_cons_of_mem x ha))
    by_cases hp : p x = true
    · have hq : q x = false := by
        cases hqt : q x
        · rfl
        · exact absurd ⟨hp, hqt⟩ hx
      by_cases hw : w x = true <;>
        · simp [List.filter_cons, hp, hq, hw, ihs]
          try omega
    · have hp2 : p x = false := by simpa using hp
      by_cases hq : q x = true <;> by_cases hw : w x = true <;>
        · simp [List.filter_cons, hp2, hq, hw, ihs]
          try omega

theorem sum_over_rids (db : DB) (n : String) :
    ∀ rids : List Nat, rids.Nodup →
      (rids.map (fun rid =>
          ((db.recipeingredients.filter
              (fun ri => ri.recipe == rid && riHasName db ri n)).map
            (fun ri => ri.amount)).sum)).sum =
        ((db.recipeingredients.filter
            (fun ri => rids.contains ri.recipe && riHasName db ri n)).map
          (fun ri => ri.amount)).sum := by
  intro rids
  induction rids with
  | nil =>
    intro _
    simp [List.filter_eq_nil_iff]
  | cons rid rest ih =>
    intro hnd
    obtain ⟨hmem, hrest⟩ := List.nodup_cons.mp hnd
    rw [List.map_cons, List.sum_cons, ih hrest]
    have hpred : (fun ri : RecipeIngredient =>
          (rid :: rest).contains ri.recipe && riHasName db ri n) =
        (fun ri : RecipeIngredient =>
          ((ri.recipe == rid) || rest.contains ri.recipe) && riHasName db ri n) := by
      funext ri
      rw [List.contains_cons]
    rw [hpred,
      sum_filter_or (fun ri : RecipeIngredient => ri.recipe == rid)
        (fun ri : RecipeIngredient => rest.contains ri.recipe)
        (fun ri : RecipeIngredient => riHasName db ri n)
        (fun ri : RecipeIngredient => ri.amount) db.recipeingredients ?_]
    intro a _ hc
    obtain ⟨hc1, hc2⟩ := hc
    have h1 : a.recipe = rid := by simpa using hc1
    exact hmem (List.elem_iff.mp (h1 ▸ hc2))

theorem sumNamed_join (db : DB) (u : Nat) (n : String)
    (hnd : (cartRecipeIds db u).Nodup) :
    sumNamed (shoppingCartJoin db u) n = specNameTotal db u n := by
  unfold shoppingCartJoin specNameTotal
  rw [sumNamed_flatMap]
  rw [List.map_congr_left (g := fun sc : ShoppingCart =>
    ((db.recipeingredients.filter
        (fun ri => ri.recipe == sc.recipe && riHasName db ri n)).map
      (fun ri => ri.amount)).sum)
    (fun sc _ => by
      rw [sumNamed_filterMap_joinRow, List.filter_filter]
      simp only [Bool.and_comm])]
  have hmm : ((db.shoppingcarts.filter (fun sc => sc.user == u)).map
      (fun sc : ShoppingCart =>
        ((db.recipeingredients.filter
            (fun ri => ri.recipe == sc.recipe && riHasName db ri n)).map
          (fun ri => ri.amount)).sum)) =
      ((cartRecipeIds db u).map (fun rid =>
        ((db.recipeingredients.filter
            (fun ri => ri.recipe == rid && riHasName db ri n)).map
          (fun ri => ri.amount)).sum)) := by
    rw [cartRecipeIds, List.map_map]
    rfl
  rw [hmm, sum_over_rids db n (cartRecipeIds db u) hnd]

theorem charListLe_total : ∀ a b : List Char,
    charListLe a b = true ∨ charListLe b a = true
  | [], _ => Or.inl (by simp [charListLe])
  | _ :: _, [] => Or.inr (by simp [charListLe])
  | x :: xs, y :: ys => by
    by_cases h1 : x.toNat < y.toNat
    · exact Or.inl (by simp [charListLe, h1])
    · by_cases h2 : y.toNat < x.toNat
      · exact Or.inr (by simp [charListLe, h2])
      · rcases charListLe_total xs ys with h | h
        · exact Or.inl (by simp [charListLe, h1, h2, h])
        · exact Or.inr (by simp [charListLe, h1, h2, h])

theorem charListLe_trans : ∀ a b c : List Char,
    charListLe a b = true → charListLe b c = true → charListLe a c = true
  | [], _, _, _, _ => by simp [charListLe]
  | _ :: _, [], _, hab, _ => by simp [charListLe] at hab
  | _ :: _, _ :: _, [], _, hbc => by simp [charListLe] at hbc
  | x :: xs, y :: ys, z :: zs, hab, hbc => by
    simp only [charListLe] at hab hbc ⊢
    by_cases h1 : x.toNat < y.toNat
    · by_cases h2 : y.toNat < z.toNat
      · have h5 : x.toNat < z.toNat := by omega
        simp [h5]
      · by_cases h3 : z.toNat < y.toNat
        · simp [h2, h3] at hbc
        · have h5 : x.toNat < z.toNat := by omega
          simp [h5]
    · by_cases h4 : y.toNat < x.toNat
      · simp [h1, h4] at hab
      · have hab2 : charListLe xs ys = true := by simpa [h1, h4] using hab
        by_cases h2 : y.toNat < z.toNat
        · have h5 : x.toNat < z.toNat := by omega
          simp [h5]
        · by_cases h3 : z.toNat < y.toNat
          · simp [h2, h3] at hbc
          · have hbc2 : charListLe ys zs = true := by simpa [h2, h3] using hbc
            have h5 : ¬ x.toNat < z.toNat := by omega
            have h6 : ¬ z.toNat < x.toNat := by omega
            simp only [h5, h6, if_false]
            exact charListLe_trans xs ys zs hab2 hbc2

theorem strLe_total (a b : String) : strLe a b = true ∨ strLe b a = true :=
  charListLe_total a.data b.data

theorem strLe_trans {a b c : String} (h1 : strLe a b = true) (h2 : strLe b c = true) :
    strLe a c = true :=
  charListLe_trans a.data b.data c.data h1 h2

theorem pairwise_insertByName (r : CartRow) (l : List CartRow)
    (h : l.Pairwise (fun a b => strLe a.name b.name = true)) :
    (insertByName r l).Pairwise (fun a b => strLe a.name b.name = true) := by
  induction l with
  | nil => simp [insertByName]
  | cons x xs ih =>
    rcases List.pairwise_cons.mp h with ⟨hx, hxs⟩
    by_cases hc : strLe r.name x.name = true
    · rw [show insertByName r (x :: xs) = r :: x :: xs from by simp [insertByName, hc]]
      refine List.pairwise_cons.mpr ⟨?_, h⟩
      intro b hb
      rcases List.mem_cons.mp hb with hb | hb
      · subst hb
        exact hc
      · exact strLe_trans hc (hx b hb)
    · rw [show insertByName r (x :: xs) = x :: insertByName r xs from by
        simp [insertByName, hc]]
      refine List.pairwise_cons.mpr ⟨?_, ih hxs⟩
      intro b hb
      have hmem : b ∈ r :: xs := (insertByName_perm r xs).mem_iff.mp hb
      rcases List.mem_cons.mp hmem with hb2 | hb2
      · rw [hb2]
        rcases strLe_total x.name r.name with ht | ht
        · exact ht
        · exact absurd ht hc
      · exact hx b hb2

theorem pairwise_sortByName (l : List CartRow) :
    (sortByName l).Pairwise (fun a b => strLe a.name b.name = true) := by
  induction l with
  | nil => simp [sortByName]
  | cons x xs ih => exact pairwise_insertByName x (sortByName xs) ih

theorem keys_sorted_foldl :
    ∀ (rows : List CartRow) (acc : List (String × Nat × String)),
      rows.Pairwise (fun a b => strLe a.name b.name = true) →
      (keys acc).Pairwise (fun a b => strLe a b = true) →
      (∀ k ∈ keys acc, ∀ r ∈ rows, strLe k r.name = true) →
      (keys (rows.foldl
          (fun acc r => dictUpdate acc r.name r.amount r.measurement_unit) acc)).Pairwise
        (fun a b => strLe a b = true)
  | [], _, _, hacc, _ => by simpa using hacc
  | r :: rs, acc, hrows, hacc, hall => by
    simp only [List.foldl_cons]
    rcases List.pairwise_cons.mp hrows with ⟨hr, hrs⟩
    apply keys_sorted_foldl rs _ hrs
    · rw [keys_dictUpdate]
      by_cases hany : acc.any (fun e => e.1 == r.name) = true
      · simpa [hany] using hacc
      · simp only [hany, Bool.false_eq_true, if_false]
        rw [List.pairwise_append]
        refine ⟨hacc, List.pairwise_singleton _ _, ?_⟩
        intro a ha b hb
        rw [List.mem_singleton] at hb
        subst hb
        exact hall a ha r (List.mem_cons_self r rs)
    · intro k hk x hx
      rw [keys_dictUpdate] at hk
      by_cases hany : acc.any (fun e => e.1 == r.name) = true
      · rw [if_pos hany] at hk
        exact hall k hk x (List.mem_cons_of_mem r hx)
      · rw [if_neg hany] at hk
        rcases List.mem_append.mp hk with hk | hk
        · exact hall k hk x (List.mem_cons_of_mem r hx)
        · rw [List.mem_singleton] at hk
          subst hk
          exact hr x hx

theorem keys_aggregate_sorted (rows : List CartRow)
    (hrows : rows.Pairwise (fun a b => strLe a.name b.name = true)) :
    (keys (aggregate_ingredients rows)).Pairwise (fun a b => strLe a b = true) :=
  keys_sorted_foldl rows [] hrows (by simp [keys]) (by simp [keys])

theorem lookupAmount_isSome_iff_mem_keys (l : List (String × Nat × String)) (n : String) :
    (lookupAmount l n).isSome = true ↔ n ∈ keys l := by
  induction l with
  | nil => simp [lookupAmount, keys]
  | cons e rest ih =>
    by_cases h : (e.1 == n) = true
    · have he : e.1 = n := by simpa using h
      simp [lookupAmount, keys, h, he]
    · have hne : ¬ n = e.1 := fun hc => h (by simpa using hc.symm)
      simp [lookupAmount, keys, h, ih, hne]

theorem keys_aggregate_mem_iff (rows : List CartRow) (n : String) :
    n ∈ keys (aggregate_ingredients rows) ↔ hasName rows n = true := by
  rw [← lookupAmount_isSome_iff_mem_keys, lookupAmount_aggregate]
  by_cases h : hasName rows n = true <;> simp [h]

theorem hasName_perm {l₁ l₂ : List CartRow} (h : l₁.Perm l₂) (n : String) :
    hasName l₁ n = hasName l₂ n := by
  unfold hasName
  by_cases h1 : l₁.any (fun r => r.name == n) = true
  · obtain ⟨x, hx, hpx⟩ := List.any_eq_true.mp h1
    rw [h1, List.any_eq_true.mpr ⟨x, h.mem_iff.mp hx, hpx⟩]
  · have h2 : ¬ l₂.any (fun r => r.name == n) = true := by
      intro hc
      obtain ⟨x, hx, hpx⟩ := List.any_eq_true.mp hc
      exact h1 (List.any_eq_true.mpr ⟨x, h.mem_iff.mpr hx, hpx⟩)
    rw [Bool.not_eq_true] at h1 h2
    rw [h1, h2]

/-! Claim theorems. -/

/-- C1: for every user and every database state whose ShoppingCart rows
for that user reference pairwise distinct recipes (the unique
(user, recipe) constraint of the ShoppingCart table), every entry of
the aggregation computed by download_shopping_cart reports as total
exactly the sum of the amount values of all RecipeIngredient rows of
the cart recipes whose ingredient has that display name: the grouping
key is the display name, not the ingredient id. -/
theorem C1_aggregation_groups_by_name (db : DB) (u : Nat)
    (hnd : (cartRecipeIds db u).Nodup)
    (name : String) (amt : Nat) (unit : String)
    (h : (name, amt, unit) ∈ aggregate_ingredients (downloadQueryset db u)) :
    amt = specNameTotal db u name := by
  have hk := keys_nodup_aggregate (downloadQueryset db u)
  have hl : lookupAmount (aggregate_ingredients (downloadQueryset db u)) name = some amt :=
    lookupAmount_of_mem hk h
  rw [lookupAmount_aggregate] at hl
  by_cases hh : hasName (downloadQueryset db u) name = true
  · rw [if_pos hh] at hl
    have hs : sumNamed (downloadQueryset db u) name = amt := by simpa using hl
    rw [← hs, show sumNamed (downloadQueryset db u) name
        = sumNamed (shoppingCartJoin db u) name from
      sumNamed_perm (sortByName_perm _) name]
    exact sumNamed_join db u name hnd
  · rw [if_neg hh] at hl
    cases hl

/-- Witness for C1 at a concrete database in which two distinct
ingredient records (ids 1 and 2, units g and kg) share the display
name Salt, so grouping by name merges their amounts 10 and 5. -/
theorem C1_aggregation_groups_by_name_witness :
    (cartRecipeIds twoSaltDB 1).Nodup
  ∧ ("Salt", 15, "kg") ∈ aggregate_ingredients (downloadQueryset twoSaltDB 1)
  ∧ (15 : Nat) = specNameTotal twoSaltDB 1 "Salt" :=
  ⟨by decide, by decide,
    C1_aggregation_groups_by_name twoSaltDB 1 (by decide) "Salt" 15 "kg" (by decide)⟩

/-- C2 counterexample: at the exact scenario of the claim (cart of
user 1 holding recipe A with sole ingredient (Salt, g, 10) and recipe B
with sole ingredient (Salt, g, 5)), the download yields one product
line, but that line reads "Salt - 15 (g)." with a trailing period, not
"Salt - 15 (g)" as the claim states. -/
theorem C2_salt_line_counterexample :
    download_shopping_cart saltDB 1 = "Ваш список покупок:\n" ++ "Salt - 15 (g)." ++ "\n"
  ∧ "Salt - 15 (g)." ≠ "Salt - 15 (g)" :=
  ⟨by decide, by decide⟩

/-- C2 amended: in the claim scenario the aggregation yields the single
entry (Salt, 15, g) and the downloaded report is the header line
followed by the single product line "Salt - 15 (g)." with a trailing
period. -/
theorem C2_salt_line_amended :
    aggregate_ingredients (downloadQueryset saltDB 1) = [("Salt", 15, "g")]
  ∧ download_shopping_cart saltDB 1 = "Ваш список покупок:\nSalt - 15 (g).\n" :=
  ⟨by decide, by decide⟩

/-- C7 counterexample: for a user with an empty cart the downloaded
report is exactly the fixed header line, which contains no digit at
all, hence no generation timestamp, and is followed by no Products or
Recipes section. -/
theorem C7_report_counterexample :
    download_shopping_cart emptyCartDB 7 = "Ваш список покупок:\n"
  ∧ ("Ваш список покупок:\n".toList.all (fun c => !c.isDigit)) = true :=
  ⟨by decide, by decide⟩

/-- C7 amended: for every user the download output consists of exactly
the fixed header line (which carries no timestamp) followed by one line
name - total (unit). per entry of the aggregation and nothing else (in
particular no Products heading and no Recipes section); the entry names
are pairwise distinct, appear in ascending lexicographic name order,
and are exactly the ingredient names joined from the cart rows of the
user; for a user whose cart is empty the report is the bare header
line. -/
theorem C7_report_amended (db : DB) (u : Nat) :
    download_shopping_cart db u
        = "Ваш список покупок:\n"
          ++ String.join ((aggregate_ingredients (downloadQueryset db u)).map
              (fun e => e.1 ++ " - " ++ toString e.2.1 ++ " (" ++ e.2.2 ++ ").\n"))
  ∧ (keys (aggregate_ingredients (downloadQueryset db u))).Nodup
  ∧ (keys (aggregate_ingredients (downloadQueryset db u))).Pairwise
      (fun a b => strLe a b = true)
  ∧ (∀ n, n ∈ keys (aggregate_ingredients (downloadQueryset db u))
        ↔ hasName (shoppingCartJoin db u) n = true)
  ∧ (db.shoppingcarts.filter (fun sc => sc.user == u) = [] →
        download_shopping_cart db u = "Ваш список покупок:\n") := by
  refine ⟨?_, ?_, ?_, ?_, ?_⟩
  · rfl
  · exact keys_nodup_aggregate (downloadQueryset db u)
  · exact keys_aggregate_sorted (downloadQueryset db u)
      (pairwise_sortByName (shoppingCartJoin db u))
  · intro n
    rw [keys_aggregate_mem_iff]
    unfold downloadQueryset
    rw [hasName_perm (sortByName_perm (shoppingCartJoin db u)) n]
  · intro h
    unfold download_shopping_cart downloadQueryset shoppingCartJoin
    rw [h, List.flatMap_nil]
    decide

/-- Witness for the amended C7, applying it at a populated database in
which user 7 has no ShoppingCart row to discharge the empty-cart
hypothesis. -/
theorem C7_report_amended_witness :
    emptyCartDB.shoppingcarts.filter (fun sc => sc.user == 7) = []
  ∧ download_shopping_cart emptyCartDB 7 = "Ваш список покупок:\n" :=
  ⟨by decide, (C7_report_amended emptyCartDB 7).2.2.2.2 (by decide)⟩

/-- C3: after RecipeSerializer.update, the RecipeIngredient rows of the
updated recipe are exactly the (ingredient id, amount) pairs of the new
ingredient list, in order (delete-all then re-insert), and the rows of
every other recipe are untouched. -/
theorem C3_update_replaces_ingredient_set (db : DB) (rid : Nat) (d : RecipeData)
    (items : List (Nat × Nat)) :
    ((RecipeSerializer_update db rid d items).recipeingredients.filter
        (fun ri => ri.recipe == rid))
      = items.map (fun p => { recipe := rid, ingredient := p.1, amount := p.2 })
  ∧ ((RecipeSerializer_update db rid d items).recipeingredients.filter
        (fun ri => !(ri.recipe == rid)))
      = db.recipeingredients.filter (fun ri => !(ri.recipe == rid)) := by
  unfold RecipeSerializer_update add_ingredients updateRecipeRow clearIngredients
  constructor
  · simp [List.filter_append, List.filter_filter]
    intro a x y hmem heq
    subst heq
    rfl
  · simp [List.filter_append, List.filter_filter]
    intro a x y hmem heq
    subst heq
    rfl

/-- C5: RecipeSerializer.validate rejects an empty ingredient list, a
duplicate ingredient id, and a missing image, each with its own
message, and whenever validate rejects, neither create nor update
persists any row: the database is returned unchanged. -/
theorem C5_validation_rejects_and_persists_nothing (db : DB) (author rid : Nat)
    (d : RecipeData) (ingredients : List (Nat × Nat)) :
    (ingredients = [] →
        RecipeSerializer_validate ingredients d.image
          = some "Укажите необходимые ингрeдиенты для рецепта!")
  ∧ (¬ (ingredients.map (fun p => p.1)).Nodup →
        RecipeSerializer_validate ingredients d.image
          = some "Вы указали одинаковые ингредиенты при создании рецепта!")
  ∧ (d.image = none → ∃ m, RecipeSerializer_validate ingredients d.image = some m)
  ∧ (ingredients ≠ [] → (ingredients.map (fun p => p.1)).Nodup → d.image = none →
        RecipeSerializer_validate ingredients d.image
          = some "Вы не указали картинку рецепта!")
  ∧ (∀ m, RecipeSerializer_validate ingredients d.image = some m →
        recipeCreate db author rid d ingredients = (some m, db)
        ∧ recipeUpdate db rid d ingredients = (some m, db)) := by
  refine ⟨?_, ?_, ?_, ?_, ?_⟩
  · intro h
    subst h
    simp [RecipeSerializer_validate]
  · intro h
    have hne : ingredients ≠ [] := by
      intro hc
      subst hc
      simp at h
    simp [RecipeSerializer_validate, List.isEmpty_iff, hne, h]
  · intro h
    unfold RecipeSerializer_validate
    by_cases h1 : ingredients.isEmpty = true
    · exact ⟨"Укажите необходимые ингрeдиенты для рецепта!", by simp [h1]⟩
    · by_cases h2 : (ingredients.map (fun p => p.1)).Nodup
      · exact ⟨"Вы не указали картинку рецепта!", by simp [h1, h2, h]⟩
      · exact ⟨"Вы указали одинаковые ингредиенты при создании рецепта!", by simp [h1, h2]⟩
  · intro h1 h2 h3
    simp [RecipeSerializer_validate, List.isEmpty_iff, h1, h2, h3]
  · intro m hm
    constructor
    · unfold recipeCreate
      rw [hm]
    · unfold recipeUpdate
      rw [hm]

/-- Witness for C5: each rejection rule observed at a concrete input,
with the create and update operations leaving a concrete database
unchanged. -/
theorem C5_validation_rejects_and_persists_nothing_witness :
    RecipeSerializer_validate []
        (RecipeData.mk "r" (some "i.png") "t" 1).image
      = some "Укажите необходимые ингрeдиенты для рецепта!"
  ∧ RecipeSerializer_validate [(1, 2), (1, 3)]
        (RecipeData.mk "r" (some "i.png") "t" 1).image
      = some "Вы указали одинаковые ингредиенты при создании рецепта!"
  ∧ RecipeSerializer_validate [(1, 2)] (RecipeData.mk "r" none "t" 1).image
      = some "Вы не указали картинку рецепта!"
  ∧ recipeCreate emptyCartDB 9 5 (RecipeData.mk "r" none "t" 1) [(1, 2)]
      = (some "Вы не указали картинку рецепта!", emptyCartDB)
  ∧ recipeUpdate emptyCartDB 1 (RecipeData.mk "r" none "t" 1) [(1, 2)]
      = (some "Вы не указали картинку рецепта!", emptyCartDB) := by
  refine ⟨?_, ?_, ?_, ?_, ?_⟩
  · exact (C5_validation_rejects_and_persists_nothing emptyCartDB 9 5
      (RecipeData.mk "r" (some "i.png") "t" 1) []).1 rfl
  · exact (C5_validation_rejects_and_persists_nothing emptyCartDB 9 5
      (RecipeData.mk "r" (some "i.png") "t" 1) [(1, 2), (1, 3)]).2.1 (by decide)
  · exact (C5_validation_rejects_and_persists_nothing emptyCartDB 9 5
      (RecipeData.mk "r" none "t" 1) [(1, 2)]).2.2.2.1 (by decide) (by decide) rfl
  · exact ((C5_validation_rejects_and_persists_nothing emptyCartDB 9 5
      (RecipeData.mk "r" none "t" 1) [(1, 2)]).2.2.2.2 _ (by decide)).1
  · exact ((C5_validation_rejects_and_persists_nothing emptyCartDB 9 1
      (RecipeData.mk "r" none "t" 1) [(1, 2)]).2.2.2.2 _ (by decide)).2

/-- C6: for every database state and every user, a POST subscribe by
the user targeting the user fails with the self-subscription
validation error and the database, in particular the Subscribers
table, is unchanged. -/
theorem C6_self_subscribe_always_fails (db : DB) (u : Nat) :
    subscribePost db u u = (some "Нельзя подписаться на самого себя!", db) := by
  simp [subscribePost, SubscribeSerializer_validate]

/-- C9: for every database state, the serializer flags is_favorited,
is_in_shopping_cart and is_subscribed are False for an anonymous
request, whatever the FavoriteRecipe, ShoppingCart and Subscribers
tables hold. -/
theorem C9_anonymous_flags_always_false (db : DB) (rid aid : Nat) :
    get_is_favorited db none rid = false
  ∧ get_is_in_shopping_cart db none rid = false
  ∧ get_is_subscribed db none aid = false :=
  ⟨rfl, rfl, rfl⟩

theorem fav_filter_eq_singleton (db : DB) (u rid : Nat)
    (hex : favExists db u rid = true)
    (hu : (db.favorites.filter (fun f => f.user == u && f.recipe == rid)).length ≤ 1) :
    db.favorites.filter (fun f => f.user == u && f.recipe == rid)
      = [{ user := u, recipe := rid }] := by
  obtain ⟨f, hf, hfp⟩ := List.any_eq_true.mp hex
  have hmemf : f ∈ db.favorites.filter (fun f => f.user == u && f.recipe == rid) :=
    List.mem_filter.mpr ⟨hf, hfp⟩
  have hpos : 0 < (db.favorites.filter
      (fun f => f.user == u && f.recipe == rid)).length :=
    List.length_pos.mpr (List.ne_nil_of_mem hmemf)
  have hlen1 : (db.favorites.filter
      (fun f => f.user == u && f.recipe == rid)).length = 1 := by omega
  obtain ⟨a, ha⟩ := List.length_eq_one.mp hlen1
  have hamem : a ∈ db.favorites.filter (fun f => f.user == u && f.recipe == rid) := by
    rw [ha]; exact List.mem_singleton.mpr rfl
  have hap := (List.mem_filter.mp hamem).2
  have hsplit : a.user = u ∧ a.recipe = rid := by simpa using hap
  rw [ha]
  cases a
  simp_all

/-- C4: toggle semantics of the favorite and shopping-cart endpoints.
A POST with an existing relation row answers the duplicate 400 error
(the Conflict of the error taxonomy) and leaves the database unchanged;
a DELETE with no relation row answers the not-found 400 error (the
NotFound of the taxonomy) and leaves the database unchanged; otherwise
a POST appends exactly the one (user, recipe) row and a DELETE removes
exactly that row (under the unique (user, recipe) constraint). -/
theorem C4_toggle_conflict_notfound_insert_delete (db : DB) (u : Nat) (r : Recipe) :
    (favExists db u r.id = true →
        add_to_favorites db u r = (.badRequest "Рецепт уже добавлен в избранное!", db))
  ∧ (cartExists db u r.id = true →
        add_to_shopping_cart db u r = (.badRequest "Рецепт уже добавлен!", db))
  ∧ (favExists db u r.id = false →
        remove_from_favorites db u r = (.badRequest "Рецепт не найден в избранном.", db))
  ∧ (cartExists db u r.id = false →
        remove_from_shopping_cart db u r
          = (.badRequest "Рецепт не найден в списке покупок.", db))
  ∧ (favExists db u r.id = false →
        (add_to_favorites db u r).2.favorites
            = db.favorites ++ [{ user := u, recipe := r.id }]
        ∧ (add_to_favorites db u r).2.shoppingcarts = db.shoppingcarts)
  ∧ (cartExists db u r.id = false →
        (add_to_shopping_cart db u r).2.shoppingcarts
            = db.shoppingcarts
                ++ [{ id := db.nextShoppingCartId, user := u, recipe := r.id }]
        ∧ (add_to_shopping_cart db u r).2.favorites = db.favorites)
  ∧ (favExists db u r.id = true →
        (db.favorites.filter (fun f => f.user == u && f.recipe == r.id)).length ≤ 1 →
        (remove_from_favorites db u r).1 = .noContent
        ∧ db.favorites.Perm
            ({ user := u, recipe := r.id } :: (remove_from_favorites db u r).2.favorites))
  ∧ (cartExists db u r.id = true →
        (remove_from_shopping_cart db u r).1 = .noContent
        ∧ (remove_from_shopping_cart db u r).2.shoppingcarts
            = db.shoppingcarts.filter (fun sc => !(sc.user == u && sc.recipe == r.id))) := by
  refine ⟨?_, ?_, ?_, ?_, ?_, ?_, ?_, ?_⟩
  · intro h; simp [add_to_favorites, h]
  · intro h; simp [add_to_shopping_cart, h]
  · intro h; simp [remove_from_favorites, h]
  · intro h; simp [remove_from_shopping_cart, h]
  · intro h; simp [add_to_favorites, h, saveRecipe]
  · intro h; simp [add_to_shopping_cart, h, saveRecipe]
  · intro h hu
    constructor
    · simp [remove_from_favorites, h, saveRecipe]
    · have hf : (remove_from_favorites db u r).2.favorites
          = db.favorites.filter (fun f => !(f.user == u && f.recipe == r.id)) := by
        simp [remove_from_favorites, h, saveRecipe]
      rw [hf]
      have hperm := (List.filter_append_perm
        (fun f => f.user == u && f.recipe == r.id) db.favorites).symm
      rw [fav_filter_eq_singleton db u r.id h hu] at hperm
      simpa using hperm
  · intro h
    constructor
    · simp [remove_from_shopping_cart, h]
    · simp [remove_from_shopping_cart, h, saveRecipe]

/-- Witness for C4 at concrete databases: a duplicate POST favorite on
favCartDB conflicts, a DELETE favorite on borschtDB (no row) is
rejected, a fresh POST favorite appends the row, and a DELETE favorite
on favCartDB removes exactly the one row. -/
theorem C4_toggle_conflict_notfound_insert_delete_witness :
    add_to_favorites favCartDB 1 borschtRecipe
        = (.badRequest "Рецепт уже добавлен в избранное!", favCartDB)
  ∧ remove_from_favorites borschtDB 1 borschtRecipe
        = (.badRequest "Рецепт не найден в избранном.", borschtDB)
  ∧ (add_to_favorites borschtDB 1 borschtRecipe).2.favorites
        = borschtDB.favorites ++ [{ user := 1, recipe := borschtRecipe.id }]
  ∧ (remove_from_favorites favCartDB 1 borschtRecipe).1 = .noContent
  ∧ favCartDB.favorites.Perm
        ({ user := 1, recipe := borschtRecipe.id }
          :: (remove_from_favorites favCartDB 1 borschtRecipe).2.favorites) := by
  refine ⟨?_, ?_, ?_, ?_, ?_⟩
  · exact (C4_toggle_conflict_notfound_insert_delete favCartDB 1 borschtRecipe).1 (by decide)
  · exact (C4_toggle_conflict_notfound_insert_delete borschtDB 1 borschtRecipe).2.2.1 (by decide)
  · exact ((C4_toggle_conflict_notfound_insert_delete borschtDB 1 borschtRecipe).2.2.2.2.1
      (by decide)).1
  · exact ((C4_toggle_conflict_notfound_insert_delete favCartDB 1 borschtRecipe).2.2.2.2.2.2.1
      (by decide) (by decide)).1
  · exact ((C4_toggle_conflict_notfound_insert_delete favCartDB 1 borschtRecipe).2.2.2.2.2.2.1
      (by decide) (by decide)).2

/-- C8 counterexample: on a fresh database whose sole recipe has id 2
while the ShoppingCart auto-increment counter is at 1, a successful
POST shopping_cart answers with payload id 1 (the created ShoppingCart
row id), not the recipe id 2, so the response is not the minified
representation of the recipe. -/
theorem C8_cart_payload_counterexample :
    (add_to_shopping_cart borschtDB 1 borschtRecipe).1
        = Resp.created (Payload.minified 1 "Борщ" (some "b.png") 30)
  ∧ borschtRecipe.id = 2
  ∧ (add_to_shopping_cart borschtDB 1 borschtRecipe).1
        ≠ Resp.created (recipeMinified borschtRecipe) :=
  ⟨by decide, by decide, by decide⟩

/-- C8 amended: a successful POST favorite returns the minified
representation of the recipe (its id, name, image, cooking_time); a
successful POST shopping_cart returns the recipe name, image and
cooking_time, but with the id of the newly created ShoppingCart row in
place of the recipe id. -/
theorem C8_success_payloads_amended (db : DB) (u : Nat) (r : Recipe)
    (hfav : favExists db u r.id = false) (hcart : cartExists db u r.id = false) :
    (add_to_favorites db u r).1 = Resp.created (recipeMinified r)
  ∧ (add_to_shopping_cart db u r).1
      = Resp.created
          (Payload.minified db.nextShoppingCartId r.name r.image r.cooking_time) := by
  constructor
  · simp [add_to_favorites, hfav]
  · simp [add_to_shopping_cart, hcart]

/-- Witness for the amended C8 at the concrete borschtDB database. -/
theorem C8_success_payloads_amended_witness :
    (add_to_favorites borschtDB 1 borschtRecipe).1
        = Resp.created (recipeMinified borschtRecipe)
  ∧ (add_to_shopping_cart borschtDB 1 borschtRecipe).1
        = Resp.created
            (Payload.minified borschtDB.nextShoppingCartId borschtRecipe.name
              borschtRecipe.image borschtRecipe.cooking_time) :=
  C8_success_payloads_amended borschtDB 1 borschtRecipe (by decide) (by decide)

theorem saveRecipe_recipes_eq (l : List Recipe) (r : Recipe)
    (hnd : (l.map (fun x => x.id)).Nodup)
    (hfind : l.find? (fun x => x.id == r.id) = some r) :
    l.map (fun x => if x.id == r.id then r else x) = l := by
  have hrmem : r ∈ l := List.mem_of_find?_eq_some hfind
  have hinj := List.inj_on_of_nodup_map hnd
  have hcongr : ∀ a ∈ l, (if a.id == r.id then r else a) = a := by
    intro a ha
    by_cases hid : (a.id == r.id) = true
    · have heq : a = r := hinj ha hrmem (by simpa using hid)
      simp [hid, heq]
    · simp [hid]
  exact (List.map_congr_left hcongr).trans (List.map_id l)

/-- C10: the favorite and shopping-cart POST/DELETE toggles leave every
Recipe row unchanged: the is_favorited / is_in_shopping_cart attributes
set before recipe.save() are not model fields, so the save writes back
the unchanged model fields and only the join table changes. -/
theorem C10_toggles_leave_recipe_rows_unchanged (db : DB) (u : Nat) (r : Recipe)
    (hnd : (db.recipes.map (fun x => x.id)).Nodup)
    (hfind : recipeLookup db r.id = some r) :
    (add_to_favorites db u r).2.recipes = db.recipes
  ∧ (remove_from_favorites db u r).2.recipes = db.recipes
  ∧ (add_to_shopping_cart db u r).2.recipes = db.recipes
  ∧ (remove_from_shopping_cart db u r).2.recipes = db.recipes := by
  have hsave := saveRecipe_recipes_eq db.recipes r hnd hfind
  refine ⟨?_, ?_, ?_, ?_⟩
  · by_cases h : favExists db u r.id = true
    · simp [add_to_favorites, h]
    · simp [add_to_favorites, saveRecipe, h]
      simpa using hsave
  · by_cases h : favExists db u r.id = true
    · simp [remove_from_favorites, saveRecipe, h]
      simpa using hsave
    · simp [remove_from_favorites, h]
  · by_cases h : cartExists db u r.id = true
    · simp [add_to_shopping_cart, h]
    · simp [add_to_shopping_cart, saveRecipe, h]
      simpa using hsave
  · by_cases h : cartExists db u r.id = true
    · simp [remove_from_shopping_cart, saveRecipe, h]
      simpa using hsave
    · simp [remove_from_shopping_cart, h]

/-- Witness for C10 at the concrete borschtDB database. -/
theorem C10_toggles_leave_recipe_rows_unchanged_witness :
    (add_to_favorites borschtDB 1 borschtRecipe).2.recipes = borschtDB.recipes
  ∧ (remove_from_favorites borschtDB 1 borschtRecipe).2.recipes = borschtDB.recipes
  ∧ (add_to_shopping_cart borschtDB 1 borschtRecipe).2.recipes = borschtDB.recipes
  ∧ (remove_from_shopping_cart borschtDB 1 borschtRecipe).2.recipes = borschtDB.recipes :=
  C10_toggles_leave_recipe_rows_unchanged borschtDB 1 borschtRecipe
    (by decide) (by decide)

end Foodgram
